import Mathlib

/-!
Shallow embedding of the Endicia (USPS) shipping integration for a sales
module (`sale.py`): sale configuration defaults, shipping-cost requests,
rate shopping over mail classes, per-line weight computation, and the
shipping line applied to a sale.

Machine conventions: Python `Decimal`/`float` numbers are modelled as `ℚ`;
Python truthiness of a number is `≠ 0`, of an optional value `≠ none`, of a
string `≠ ""`.  Fallible code returns `Except SaleError`.  External
collaborators (the remote postage service, currency conversion, the uom
conversion service) are passed in as explicit parameters, mirroring how the
source calls out to them.
-/

namespace Endicia

/-- Errors raised by the module.  The first three are raised through
`raise_user_error` in the source and are therefore all `UserError`s at the
Python level; `otherExc` stands for any exception that is not a `UserError`
(e.g. an unpacking error or a raw network exception). -/
inductive SaleError where
  | mailClassMissing : SaleError
  | missingWeight (productName : String) : SaleError
  | carrierRequest (msg : String) : SaleError
  | otherExc (msg : String) : SaleError
deriving DecidableEq, Repr

/-- Whether an error is a Python `UserError` (the class caught by
`except UserError` in `get_endicia_shipping_rates`). -/
def SaleError.isUserError : SaleError → Bool
  | .otherExc _ => false
  | _ => true

/-- A unit of measure: `symbol` identifies it; `factor` is its conversion
factor to the reference unit of its category, so that
`compute_qty` converts by multiplying and dividing factors. -/
structure Uom where
  id : Nat
  symbol : String
  factor : ℚ
deriving DecidableEq, Repr

/-- `ProductUom.compute_qty(from_uom, qty, to_uom)`: convert a quantity
between units of the same category by factor ratio. -/
def computeQty (fromUom : Uom) (qty : ℚ) (toUom : Uom) : ℚ :=
  qty * fromUom.factor / toUom.factor

/-- A product: type (the source compares against the string `service`),
optional weight (Python `None` or a number; `0` is falsy), weight uom,
default uom, and the sale uom used for the carrier product on shipping
lines. -/
structure Product where
  id : Nat
  name : String
  type : String
  weight : Option ℚ
  weightUom : Uom
  defaultUom : Uom
  saleUom : Uom
deriving DecidableEq, Repr

/-- A sale line.  `shipmentCost` is the optional shipment-cost field used
to flag shipping lines (`line.shipment_cost` truthiness). -/
structure SaleLine where
  lineType : String
  product : Option Product
  description : String
  quantity : ℚ
  unit : Uom
  unitPrice : ℚ
  amount : ℚ
  shipmentCost : Option ℚ
  sequence : Nat
  taxes : List Nat
deriving DecidableEq, Repr

/-- `SaleLine.get_weight_for_endicia`, from the source:

* returns `Decimal(0)` when there is no product, the product type is
  `service`, or the quantity is `≤ 0`;
* raises the `weight_required` user error naming the product when the
  product weight is falsy (`None` or `0`);
* otherwise converts the quantity into the product default uom when the
  line unit differs, multiplies by the unit weight, converts to ounces
  when the weight uom is not `oz` (the `oz` uom is the single result of a
  uom search by symbol, passed here as `ozUom`), and returns
  `Decimal(math.ceil(weight))`. -/
def SaleLine.get_weight_for_endicia (ozUom : Uom) (l : SaleLine) :
    Except SaleError ℚ :=
  match l.product with
  | none => .ok 0
  | some p =>
    if p.type = "service" then .ok 0
    else if l.quantity ≤ 0 then .ok 0
    else
      match p.weight with
      | none => .error (.missingWeight p.name)
      | some w =>
        if w = 0 then .error (.missingWeight p.name)
        else
          let quantity :=
            if l.unit ≠ p.defaultUom then
              computeQty l.unit l.quantity p.defaultUom
            else l.quantity
          let weight := w * quantity
          let weight :=
            if p.weightUom.symbol ≠ "oz" then
              computeQty p.weightUom weight ozUom
            else weight
          .ok ((⌈weight⌉ : ℤ) : ℚ)

/-- The pre-ceiling ("raw") weight in ounces computed by
`get_weight_for_endicia` once the line has passed all the guards. -/
def endiciaRawWeight (ozUom : Uom) (l : SaleLine) (p : Product) (w : ℚ) : ℚ :=
  let quantity :=
    if l.unit ≠ p.defaultUom then
      computeQty l.unit l.quantity p.defaultUom
    else l.quantity
  let weight := w * quantity
  if p.weightUom.symbol ≠ "oz" then
    computeQty p.weightUom weight ozUom
  else weight

/-- A carrier service tier (`endicia.mailclass`): a name / value pair. -/
structure MailClass where
  id : Nat
  name : String
  value : String
deriving DecidableEq, Repr

/-- A carrier record: its cost-computation method and the reference
product used for shipping lines. -/
structure Carrier where
  id : Nat
  carrier_cost_method : String
  carrierProduct : Product
deriving DecidableEq, Repr

/-- A postal address, as consumed by the rate request. -/
structure Address where
  zip : String
  countryCode : String
deriving DecidableEq, Repr

/-- Endicia credentials from the process-wide configuration
(`EndiciaConfiguration(1).get_endicia_credentials()`). -/
structure Credentials where
  accountId : String
  requesterId : String
  passphrase : String
  isTest : Bool
deriving DecidableEq, Repr

/-- The fields of a `CalculatingPostageAPI` request. -/
structure PostageRequest where
  mailclass : String
  weightoz : ℚ
  fromPostalCode : String
  toPostalCode : String
  toCountryCode : String
  accountId : String
  requesterId : String
  passphrase : String
  isTest : Bool
deriving DecidableEq, Repr

/-- The parsed postage response: the `PostagePrice` `TotalAmount` field. -/
structure PostageResponse where
  totalAmount : ℚ
deriving DecidableEq, Repr

/-- A failure of `send_request`: either a `RequestError` reported by the
service (the only exception class the source catches around the call), or
any other exception (e.g. a raw transport failure). -/
inductive SvcError where
  | requestError (msg : String) : SvcError
  | otherError (msg : String) : SvcError
deriving DecidableEq, Repr

/-- A sale: carrier, selected mail class, lines, destination address and
warehouse (ship-from) address. -/
structure Sale where
  carrier : Option Carrier
  endicia_mailclass : Option MailClass
  lines : List SaleLine
  shipmentAddress : Address
  warehouseAddress : Address
deriving DecidableEq, Repr

/-- External collaborators of `get_endicia_shipping_cost`: the credentials
record, the remote postage service (one call of
`CalculatingPostageAPI.send_request`), and the `oz` uom (the single result
of the uom search by symbol). -/
structure CostEnv where
  creds : Credentials
  svc : PostageRequest → Except SvcError PostageResponse
  ozUom : Uom

/-- Python truthiness of the optional mail-class string argument: absent
(`None`) and the empty string are falsy. -/
def optStrTruthy : Option String → Bool
  | none => false
  | some s => decide (s ≠ "")

/-- The weights of the sale's lines, in order
(`map(lambda line: line.get_weight_for_endicia(), self.lines)`): the first
line raising a user error aborts the whole computation. -/
def endiciaLineWeights (ozUom : Uom) : List SaleLine → Except SaleError (List ℚ)
  | [] => .ok []
  | l :: rest =>
    match l.get_weight_for_endicia ozUom with
    | .error e => .error e
    | .ok w => (endiciaLineWeights ozUom rest).map (fun ws => w :: ws)

/-- The request built by `get_endicia_shipping_cost`: mail class argument
or the sale's selected mail class value, total weight of the lines,
zip5 of the warehouse and destination addresses, destination country code,
and the credentials. -/
def endiciaPostageRequest (env : CostEnv) (s : Sale) (mailclass : Option String)
    (ws : List ℚ) : PostageRequest :=
  { mailclass :=
      if optStrTruthy mailclass then mailclass.getD ""
      else
        match s.endicia_mailclass with
        | some mc => mc.value
        | none => ""
    weightoz := ws.sum
    fromPostalCode := s.warehouseAddress.zip.take 5
    toPostalCode := s.shipmentAddress.zip.take 5
    toCountryCode := s.shipmentAddress.countryCode
    accountId := env.creds.accountId
    requesterId := env.creds.requesterId
    passphrase := env.creds.passphrase
    isTest := env.creds.isTest }

/-- `Sale.get_endicia_shipping_cost`, from the source.  Returns the result
together with the trace of requests actually sent to the remote service:

* raises the `mailclass_missing` user error when the mail class argument
  is falsy and the sale has no selected mail class, without sending
  anything;
* computes the line weights (a `weight_required` user error from a line
  propagates before any request is sent);
* sends exactly one request; a `RequestError` from the service is re-raised
  as a user error carrying the service message (`raise_user_error`), any
  other exception propagates unchanged;
* on success returns `Decimal` of the response total amount. -/
def Sale.get_endicia_shipping_cost (env : CostEnv) (s : Sale)
    (mailclass : Option String) :
    Except SaleError ℚ × List PostageRequest :=
  if ¬ optStrTruthy mailclass ∧ s.endicia_mailclass = none then
    (.error .mailClassMissing, [])
  else
    match endiciaLineWeights env.ozUom s.lines with
    | .error e => (.error e, [])
    | .ok ws =>
      let req := endiciaPostageRequest env s mailclass ws
      match env.svc req with
      | .error (.requestError m) => (.error (.carrierRequest m), [req])
      | .error (.otherError m) => (.error (.otherExc m), [req])
      | .ok resp => (.ok resp.totalAmount, [req])

/-- A rate option tuple built by `Sale._make_endicia_rate_line`:
display label, cost, USD currency id, (empty) metadata is implicit, and
the write values carrying the carrier and mail-class ids. -/
structure RateLine where
  label : String
  rate : ℚ
  currencyId : Nat
  writeCarrier : Nat
  writeMailclass : Nat
deriving DecidableEq, Repr

/-- Python truthiness of a rate line: it is a non-empty tuple, hence
always truthy (this is what `filter(None, rate_lines)` tests). -/
def RateLine.truthy : RateLine → Bool := fun _ => true

/-- `Sale._make_endicia_rate_line`.  `labelFn` stands for
`carrier._get_endicia_mailclass_name`, defined in the carrier module of
this repository (outside this file's source); `usdId` is the single result
of the currency search by code `USD`. -/
def makeEndiciaRateLine (labelFn : Carrier → MailClass → String)
    (usdId : Nat) (carrier : Carrier) (mc : MailClass) (rate : ℚ) :
    RateLine :=
  { label := labelFn carrier mc
    rate := rate
    currencyId := usdId
    writeCarrier := carrier.id
    writeMailclass := mc.id }

/-- The `for mailclass in self._get_endicia_mail_classes()` loop of
`get_endicia_shipping_rates`: quote each mail class through
`get_endicia_shipping_cost(mailclass=mailclass.value)`; a `UserError`
is swallowed (the option skipped) when `silent`, re-raised otherwise;
any non-`UserError` exception propagates regardless of `silent`. -/
def endiciaRateLoop (labelFn : Carrier → MailClass → String) (usdId : Nat)
    (carrier : Carrier) (env : CostEnv) (s : Sale) (silent : Bool) :
    List MailClass → Except SaleError (List RateLine)
  | [] => .ok []
  | mc :: rest =>
    match (Sale.get_endicia_shipping_cost env s (some mc.value)).1 with
    | .error e =>
      if e.isUserError then
        if silent then endiciaRateLoop labelFn usdId carrier env s silent rest
        else .error e
      else .error e
    | .ok cost =>
      (endiciaRateLoop labelFn usdId carrier env s silent rest).map
        (fun ls => makeEndiciaRateLine labelFn usdId carrier mc cost :: ls)

/-- `Sale.get_endicia_shipping_rates`, from the source.  The carrier
search result (`Carrier.search` over the carriers configured with the
endicia cost method) is destructured into a single element: zero or
several matches raise an unpacking `ValueError` (not a `UserError`).
`mcs` is the result of `self._get_endicia_mail_classes()`.  The final
`filter(None, rate_lines)` keeps truthy tuples. -/
def Sale.get_endicia_shipping_rates (labelFn : Carrier → MailClass → String)
    (usdId : Nat) (allCarriers : List Carrier) (env : CostEnv) (s : Sale)
    (mcs : List MailClass) (silent : Bool) :
    Except SaleError (List RateLine) :=
  match allCarriers.filter (fun c => c.carrier_cost_method == "endicia") with
  | [carrier] =>
    (endiciaRateLoop labelFn usdId carrier env s silent mcs).map
      (List.filter RateLine.truthy)
  | _ => .error (.otherExc "need more than 0 values to unpack")

/-- The rate options for the mail classes whose quote succeeds, in the
iteration order of the eligible mail classes. -/
def endiciaRateSuccesses (labelFn : Carrier → MailClass → String)
    (usdId : Nat) (carrier : Carrier) (env : CostEnv) (s : Sale)
    (mcs : List MailClass) : List RateLine :=
  mcs.filterMap fun mc =>
    match (Sale.get_endicia_shipping_cost env s (some mc.value)).1 with
    | .ok cost => some (makeEndiciaRateLine labelFn usdId carrier mc cost)
    | .error _ => none

/-- Whether a sale line is flagged as a shipment-cost line: Python
truthiness of the `shipment_cost` field (`None` and `0` are falsy). -/
def isShipmentCostLine (l : SaleLine) : Bool :=
  match l.shipmentCost with
  | none => false
  | some c => decide (c ≠ 0)

/-- External collaborators of `apply_endicia_shipping`:
`carrier.get_sale_price()` first component (the computed USD cost), and
`Currency.compute` from the USD currency to the sale currency. -/
structure ApplyEnv where
  salePriceUsd : ℚ
  usdToSaleCurrency : ℚ → ℚ

/-- The shipping line created by `apply_endicia_shipping`: type `line`,
the carrier product, the mail-class name as description, quantity 1, the
carrier product's sale uom, unit price = amount = shipment cost =
the converted cost, no taxes, sequence 9999. -/
def newEndiciaShipmentLine (c : Carrier) (mc : MailClass) (cost : ℚ) :
    SaleLine :=
  { lineType := "line"
    product := some c.carrierProduct
    description := mc.name
    quantity := 1
    unit := c.carrierProduct.saleUom
    unitPrice := cost
    amount := cost
    shipmentCost := some cost
    sequence := 9999
    taxes := [] }

/-- `Sale.apply_endicia_shipping`, from the source:

* nothing happens unless the sale has a carrier whose cost method is
  `endicia`;
* with such a carrier but no selected mail class, the `mailclass_missing`
  user error is raised;
* the USD cost from `carrier.get_sale_price()` is computed; a falsy (zero)
  cost returns with no change;
* otherwise the cost is converted from USD into the sale currency and the
  lines are written with one `create` of the new shipping line and one
  `delete` of every pre-existing line whose `shipment_cost` is truthy; the
  resulting line list is the surviving old lines followed by the new line
  (sequence 9999 places it last). -/
def Sale.apply_endicia_shipping (env : ApplyEnv) (s : Sale) :
    Except SaleError Sale :=
  match s.carrier with
  | none => .ok s
  | some c =>
    if c.carrier_cost_method = "endicia" then
      match s.endicia_mailclass with
      | none => .error .mailClassMissing
      | some mc =>
        if env.salePriceUsd = 0 then .ok s
        else
          let cost := env.usdToSaleCurrency env.salePriceUsd
          .ok { s with
                lines :=
                  s.lines.filter (fun l => ! isShipmentCostLine l) ++
                    [newEndiciaShipmentLine c mc cost] }
    else .ok s

/-! Concrete sample data used to evaluate the definitions on closed
inputs. -/

/-- The ounce uom (reference factor 1). -/
def ozW : Uom := ⟨1, "oz", 1⟩

/-- A service-type product with no weight set. -/
def serviceProductW : Product := ⟨10, "Support plan", "service", none, ozW, ozW, ozW⟩

/-- A line for the service product, quantity 3. -/
def serviceLineW : SaleLine :=
  ⟨"line", some serviceProductW, "support", 3, ozW, 0, 0, none, 1, []⟩

/-- A physical product weighing 1.2 oz. -/
def gadgetW : Product := ⟨11, "Gadget", "goods", some (mkRat 6 5), ozW, ozW, ozW⟩

/-- A line for the gadget, quantity 1, in the product's own uom. -/
def gadgetLineW : SaleLine :=
  ⟨"line", some gadgetW, "gadget", 1, ozW, 0, 0, none, 2, []⟩

/-- A physical product with no weight set. -/
def anvilW : Product := ⟨12, "Anvil", "goods", none, ozW, ozW, ozW⟩

/-- A line for the weightless anvil, quantity 2. -/
def anvilLineW : SaleLine :=
  ⟨"line", some anvilW, "anvil", 2, ozW, 0, 0, none, 3, []⟩

/-- Sample credentials. -/
def credsW : Credentials := ⟨"acct", "rqid", "secret", true⟩

/-- A destination address. -/
def addrToW : Address := ⟨"90210-1234", "US"⟩

/-- A warehouse address. -/
def addrFromW : Address := ⟨"10001", "US"⟩

/-- A mail class with a regular value. -/
def mcPriorityW : MailClass := ⟨21, "Priority Mail", "Priority"⟩

/-- A mail class whose value is the empty string (falsy in Python). -/
def mcBlankW : MailClass := ⟨22, "Blank", ""⟩

/-- Another regular mail class. -/
def mcFirstW : MailClass := ⟨23, "First-Class Mail", "First"⟩

/-- The carrier reference product used for shipping lines. -/
def carrierProductW : Product := ⟨30, "USPS shipping", "service", none, ozW, ozW, ozW⟩

/-- A carrier configured with the endicia cost method. -/
def endiciaCarrierW : Carrier := ⟨31, "endicia", carrierProductW⟩

/-- A carrier with a different cost method. -/
def otherCarrierW : Carrier := ⟨32, "ups", carrierProductW⟩

/-- A sale with the endicia carrier, a selected mail class and no lines. -/
def saleMcW : Sale := ⟨some endiciaCarrierW, some mcPriorityW, [], addrToW, addrFromW⟩

/-- A sale with the endicia carrier, no selected mail class and no lines. -/
def saleNoMcW : Sale := ⟨some endiciaCarrierW, none, [], addrToW, addrFromW⟩

/-- A cost environment whose service always quotes 3.5 USD. -/
def envOkW : CostEnv := ⟨credsW, fun _ => .ok ⟨mkRat 7 2⟩, ozW⟩

/-- A cost environment whose service always reports a `RequestError`. -/
def envReqErrW : CostEnv := ⟨credsW, fun _ => .error (.requestError "server down"), ozW⟩

/-- A cost environment whose service always fails with a non-`RequestError`
exception. -/
def envSocketW : CostEnv := ⟨credsW, fun _ => .error (.otherError "socket closed"), ozW⟩

/-- A label producer standing in for `_get_endicia_mailclass_name`. -/
def lblW : Carrier → MailClass → String := fun _ mc => String.append "USPS " mc.name

/-- An existing shipping line (truthy `shipment_cost`) on a sale. -/
def oldShipLineW : SaleLine :=
  ⟨"line", some carrierProductW, "old shipping", 1, ozW, 3, 3, some 3, 9999, []⟩

/-- A sale carrying a stale shipping line next to a product line. -/
def saleApplyW : Sale :=
  ⟨some endiciaCarrierW, some mcPriorityW, [oldShipLineW, gadgetLineW], addrToW, addrFromW⟩

/-- A sale with no carrier at all. -/
def saleNoCarrierW : Sale :=
  ⟨none, some mcPriorityW, [gadgetLineW], addrToW, addrFromW⟩

/-- An apply environment: USD price 3.5, conversion doubling the amount. -/
def applyEnvW : ApplyEnv := ⟨mkRat 7 2, fun q => q + q⟩

end Endicia

namespace Endicia

theorem get_weight_eq_ceil_raw (ozUom : Uom) (l : SaleLine) (p : Product)
    (w : ℚ) (hp : l.product = some p) (ht : p.type ≠ "service")
    (hq : ¬ l.quantity ≤ 0) (hw : p.weight = some w) (hw0 : w ≠ 0) :
    l.get_weight_for_endicia ozUom =
      .ok ((⌈endiciaRawWeight ozUom l p w⌉ : ℤ) : ℚ) := by
  unfold SaleLine.get_weight_for_endicia endiciaRawWeight
  rw [hp]
  simp only [ht, if_false, hq, if_false, hw, hw0]

/-- `get_weight_for_endicia` only ever raises the `weight_required`
(missing weight) user error. -/
theorem get_weight_error_missing (ozUom : Uom) (l : SaleLine) (e : SaleError)
    (h : l.get_weight_for_endicia ozUom = .error e) :
    ∃ n, e = .missingWeight n := by
  unfold SaleLine.get_weight_for_endicia at h
  repeat' split at h
  all_goals try cases h
  all_goals exact ⟨_, rfl⟩

/-- `endiciaLineWeights` only ever raises the missing weight error. -/
theorem lineWeights_error_missing (ozUom : Uom) (ls : List SaleLine)
    (e : SaleError) (h : endiciaLineWeights ozUom ls = .error e) :
    ∃ n, e = .missingWeight n := by
  induction ls with
  | nil => cases h
  | cons l rest ih =>
    unfold endiciaLineWeights at h
    split at h
    next e₀ hw =>
      cases Except.error.inj h
      exact get_weight_error_missing ozUom l _ hw
    next w hw =>
      rcases hr : endiciaLineWeights ozUom rest with e₁ | ws <;> rw [hr] at h
      · cases Except.error.inj h
        exact ih hr
      · cases h

/-- Positivity of `compute_qty` under positive conversion factors. -/
theorem computeQty_pos (u v : Uom) (q : ℚ) (hq : 0 < q)
    (hu : 0 < u.factor) (hv : 0 < v.factor) : 0 < computeQty u q v :=
  div_pos (mul_pos hq hu) hv

/-- C4: a line with no product, a service product, or a non-positive
quantity weighs zero for endicia, regardless of the product's other
attributes (in particular no missing-weight error is raised). -/
theorem weight_zero_for_no_product_service_or_nonpositive_qty
    (ozUom : Uom) (l : SaleLine)
    (h : l.product = none ∨ (∃ p, l.product = some p ∧ p.type = "service") ∨
      l.quantity ≤ 0) :
    l.get_weight_for_endicia ozUom = .ok 0 := by
  unfold SaleLine.get_weight_for_endicia
  rcases h with h | ⟨p, hp, ht⟩ | h
  · rw [h]
  · rw [hp]; simp only [ht, if_true]
  · rcases hp : l.product with _ | p
    · rfl
    · by_cases ht : p.type = "service"
      · simp only [ht, if_true]
      · simp only [ht, if_false, h, if_true]

/-- Witness for C4: the service line (with weight unset and quantity 3)
weighs zero. -/
theorem weight_zero_witness :
    SaleLine.get_weight_for_endicia ozW serviceLineW = .ok 0 :=
  weight_zero_for_no_product_service_or_nonpositive_qty ozW serviceLineW
    (Or.inr (Or.inl ⟨serviceProductW, rfl, rfl⟩))

/-- C5: on the computation path (physical product, positive quantity,
positive weight, positive conversion factors) the endicia weight is the
ceiling of the raw ounce weight: it is an integer number of ounces, never
below the raw weight, and non-negative. -/
theorem weight_is_ceiling_of_raw_ounces (ozUom : Uom) (l : SaleLine)
    (p : Product) (w : ℚ) (hp : l.product = some p) (ht : p.type ≠ "service")
    (hq : 0 < l.quantity) (hw : p.weight = some w) (hw0 : 0 < w)
    (hu : 0 < l.unit.factor) (hd : 0 < p.defaultUom.factor)
    (hwu : 0 < p.weightUom.factor) (hoz : 0 < ozUom.factor) :
    l.get_weight_for_endicia ozUom =
        .ok ((⌈endiciaRawWeight ozUom l p w⌉ : ℤ) : ℚ) ∧
      endiciaRawWeight ozUom l p w ≤ ((⌈endiciaRawWeight ozUom l p w⌉ : ℤ) : ℚ) ∧
      (0 : ℚ) ≤ ((⌈endiciaRawWeight ozUom l p w⌉ : ℤ) : ℚ) := by
  have hq' : 0 < (if l.unit ≠ p.defaultUom then
      computeQty l.unit l.quantity p.defaultUom else l.quantity) := by
    split
    · exact computeQty_pos _ _ _ hq hu hd
    · exact hq
  have hraw : 0 < endiciaRawWeight ozUom l p w := by
    unfold endiciaRawWeight
    dsimp only
    split
    · exact computeQty_pos _ _ _ (mul_pos hw0 hq') hwu hoz
    · exact mul_pos hw0 hq'
  refine ⟨get_weight_eq_ceil_raw ozUom l p w hp ht (not_le.mpr hq) hw
      (ne_of_gt hw0), Int.le_ceil _, ?_⟩
  exact le_trans (le_of_lt hraw) (Int.le_ceil _)

/-- Witness for C5: the 1.2 oz gadget line rounds up to 2 oz, not down
to 1. -/
theorem weight_is_ceiling_witness :
    (SaleLine.get_weight_for_endicia ozW gadgetLineW =
          .ok ((⌈endiciaRawWeight ozW gadgetLineW gadgetW (mkRat 6 5)⌉ : ℤ) : ℚ) ∧
        endiciaRawWeight ozW gadgetLineW gadgetW (mkRat 6 5) ≤
          ((⌈endiciaRawWeight ozW gadgetLineW gadgetW (mkRat 6 5)⌉ : ℤ) : ℚ) ∧
        (0 : ℚ) ≤ ((⌈endiciaRawWeight ozW gadgetLineW gadgetW (mkRat 6 5)⌉ : ℤ) : ℚ)) ∧
      ((⌈endiciaRawWeight ozW gadgetLineW gadgetW (mkRat 6 5)⌉ : ℤ) : ℚ) = 2 :=
  ⟨weight_is_ceiling_of_raw_ounces ozW gadgetLineW gadgetW (mkRat 6 5) rfl
      (by decide) (by decide) rfl (by decide) (by decide) (by decide)
      (by decide) (by decide),
    by with_unfolding_all decide⟩

/-- C6: on a physical product line with positive quantity, the endicia
weight computation fails with the missing-weight error naming the product
exactly when the product weight is unset or zero. -/
theorem weight_missing_iff_falsy_weight (ozUom : Uom) (l : SaleLine)
    (p : Product) (hp : l.product = some p) (ht : p.type ≠ "service")
    (hq : 0 < l.quantity) :
    l.get_weight_for_endicia ozUom = .error (.missingWeight p.name) ↔
      (p.weight = none ∨ p.weight = some 0) := by
  unfold SaleLine.get_weight_for_endicia
  rw [hp]
  simp only [ht, if_false, not_le.mpr hq]
  rcases hw : p.weight with _ | w
  · simp
  · by_cases hw0 : w = 0
    · subst hw0; simp
    · simp only [hw0, if_false]
      simp [hw0]

/-- Witness for C6: the anvil line (physical, quantity 2, weight unset)
raises the missing-weight error naming the anvil. -/
theorem weight_missing_witness :
    SaleLine.get_weight_for_endicia ozW anvilLineW =
      .error (.missingWeight anvilW.name) :=
  (weight_missing_iff_falsy_weight ozW anvilLineW anvilW rfl (by decide)
    (by decide)).mpr (Or.inl rfl)

/-- C7: `get_endicia_shipping_cost` raises the mailclass-missing user
error exactly when the explicit mail-class argument is falsy and the sale
has no selected mail class; with either present, that error is never the
outcome (whatever the weights and the remote service do). -/
theorem shipping_cost_mailclass_missing_iff (env : CostEnv) (s : Sale)
    (mailclass : Option String) :
    (Sale.get_endicia_shipping_cost env s mailclass).1 =
        .error .mailClassMissing ↔
      (optStrTruthy mailclass = false ∧ s.endicia_mailclass = none) := by
  unfold Sale.get_endicia_shipping_cost
  by_cases hg : ¬ (optStrTruthy mailclass = true) ∧ s.endicia_mailclass = none
  · rw [if_pos hg]
    simp only [Bool.not_eq_true] at hg
    simp [hg.1, hg.2]
  · rw [if_neg hg]
    constructor
    · intro h
      exfalso
      rcases hw : endiciaLineWeights env.ozUom s.lines with e | ws <;>
        simp only [hw] at h
      · obtain ⟨n, rfl⟩ := lineWeights_error_missing env.ozUom s.lines e hw
        cases h
      · rcases hs : env.svc (endiciaPostageRequest env s mailclass ws)
          with se | resp <;> simp only [hs] at h
        · rcases se with m | m <;> simp only at h <;> cases h
        · cases h
    · intro hrhs
      exact absurd ⟨by simp [hrhs.1], hrhs.2⟩ hg

/-- C9: once the mail class is resolved and the line weights compute, the
cost request is sent exactly once; a service-reported `RequestError` is
re-raised as a user error carrying the service message, and a successful
response yields its total-postage amount. -/
theorem shipping_cost_single_attempt (env : CostEnv) (s : Sale)
    (mailclass : Option String) (ws : List ℚ)
    (hres : optStrTruthy mailclass = true ∨ s.endicia_mailclass ≠ none)
    (hw : endiciaLineWeights env.ozUom s.lines = .ok ws) :
    (Sale.get_endicia_shipping_cost env s mailclass).2 =
        [endiciaPostageRequest env s mailclass ws] ∧
      (∀ m, env.svc (endiciaPostageRequest env s mailclass ws) =
          .error (.requestError m) →
        (Sale.get_endicia_shipping_cost env s mailclass).1 =
          .error (.carrierRequest m)) ∧
      (∀ resp, env.svc (endiciaPostageRequest env s mailclass ws) = .ok resp →
        (Sale.get_endicia_shipping_cost env s mailclass).1 =
          .ok resp.totalAmount) := by
  have hg : ¬ (¬ (optStrTruthy mailclass = true) ∧ s.endicia_mailclass = none) := by
    rcases hres with h | h
    · exact fun hc => hc.1 h
    · exact fun hc => h hc.2
  have hval : Sale.get_endicia_shipping_cost env s mailclass =
      (match env.svc (endiciaPostageRequest env s mailclass ws) with
        | .error (.requestError m) => .error (.carrierRequest m)
        | .error (.otherError m) => .error (.otherExc m)
        | .ok resp => .ok resp.totalAmount,
        [endiciaPostageRequest env s mailclass ws]) := by
    unfold Sale.get_endicia_shipping_cost
    rw [if_neg hg]
    simp only [hw]
    rcases env.svc (endiciaPostageRequest env s mailclass ws) with se | resp
    · rcases se with m | m <;> rfl
    · rfl
  refine ⟨by rw [hval], ?_, ?_⟩
  · intro m hm
    rw [hval]
    simp only [hm]
  · intro resp hr
    rw [hval]
    simp only [hr]

/-- Witness for C9: with the always-failing service, the request built for
the sale with a selected mail class is sent once and the failure surfaces
as a carrier request user error with the service message. -/
theorem shipping_cost_single_attempt_witness :
    (Sale.get_endicia_shipping_cost envReqErrW saleMcW none).2 =
        [endiciaPostageRequest envReqErrW saleMcW none []] ∧
      (Sale.get_endicia_shipping_cost envReqErrW saleMcW none).1 =
        .error (.carrierRequest "server down") := by
  have h := shipping_cost_single_attempt envReqErrW saleMcW none []
    (Or.inr (by decide)) rfl
  exact ⟨h.1, h.2.1 "server down" rfl⟩

/-- C10: when the number of carriers configured with the endicia cost
method is not exactly one, `get_endicia_shipping_rates` fails with the
unpacking error, for every silent flag and whatever the environment would
answer for any mail class. -/
theorem rates_require_unique_endicia_carrier
    (labelFn : Carrier → MailClass → String) (usdId : Nat)
    (allCarriers : List Carrier) (env : CostEnv) (s : Sale)
    (mcs : List MailClass)
    (h : (allCarriers.filter fun c => c.carrier_cost_method == "endicia").length ≠ 1) :
    ∀ silent,
      Sale.get_endicia_shipping_rates labelFn usdId allCarriers env s mcs silent =
        .error (.otherExc "need more than 0 values to unpack") := by
  intro silent
  unfold Sale.get_endicia_shipping_rates
  rcases hf : allCarriers.filter (fun c => c.carrier_cost_method == "endicia")
    with _ | ⟨c, rest⟩
  · rw [hf]
  · rcases rest with _ | ⟨c₂, rest₂⟩
    · exact absurd (by rw [hf]; rfl) h
    · rw [hf]

/-- Witness for C10: with no carrier configured at all, rate shopping
fails with the unpacking error. -/
theorem rates_require_unique_endicia_carrier_witness :
    Sale.get_endicia_shipping_rates lblW 1 [] envOkW saleNoMcW [] true =
      .error (.otherExc "need more than 0 values to unpack") :=
  rates_require_unique_endicia_carrier lblW 1 [] envOkW saleNoMcW []
    (by decide) true

/-- C8: `apply_endicia_shipping` leaves the sale untouched when the
carrier is absent or not an endicia carrier, and when the computed USD
cost is falsy (zero): no line is created and none is deleted. -/
theorem apply_endicia_shipping_no_change (env : ApplyEnv) (s : Sale)
    (h : (s.carrier = none ∨
        ∃ c, s.carrier = some c ∧ c.carrier_cost_method ≠ "endicia") ∨
      ∃ c mc, s.carrier = some c ∧ c.carrier_cost_method = "endicia" ∧
        s.endicia_mailclass = some mc ∧ env.salePriceUsd = 0) :
    Sale.apply_endicia_shipping env s = .ok s := by
  unfold Sale.apply_endicia_shipping
  rcases h with (h | ⟨c, hc, hm⟩) | ⟨c, mc, hc, hm, hmc, h0⟩
  · rw [h]
  · rw [hc]
    simp only [hm, if_false]
  · rw [hc]
    simp only [hm, if_true]
    rw [hmc]
    simp only [h0, if_true]

/-- Witness for C8: a sale without a carrier is returned unchanged. -/
theorem apply_endicia_shipping_no_change_witness :
    Sale.apply_endicia_shipping applyEnvW saleNoCarrierW = .ok saleNoCarrierW :=
  apply_endicia_shipping_no_change applyEnvW saleNoCarrierW
    (Or.inl (Or.inl rfl))

/-- The freshly created shipping line is flagged as a shipment-cost line
whenever its cost is non-zero. -/
theorem isShipmentCostLine_new (c : Carrier) (mc : MailClass) (cost : ℚ)
    (h : cost ≠ 0) :
    isShipmentCostLine (newEndiciaShipmentLine c mc cost) = true := by
  simp [isShipmentCostLine, newEndiciaShipmentLine, h]

/-- After the replace-then-append write, the flagged lines are exactly
the new line. -/
theorem filter_shipment_after_replace (xs : List SaleLine) (n : SaleLine)
    (hn : isShipmentCostLine n = true) :
    ((xs.filter fun l => ! isShipmentCostLine l) ++ [n]).filter
        isShipmentCostLine = [n] := by
  simp [List.filter_append, List.filter_filter, hn]

/-- `apply_endicia_shipping` on the endicia path with a mail class and a
non-falsy USD price returns the sale with its lines rewritten. -/
theorem apply_endicia_shipping_ok (env : ApplyEnv) (s : Sale) (c : Carrier)
    (mc : MailClass) (hc : s.carrier = some c)
    (hm : c.carrier_cost_method = "endicia")
    (hmc : s.endicia_mailclass = some mc) (husd : env.salePriceUsd ≠ 0) :
    Sale.apply_endicia_shipping env s =
      .ok { s with
            lines :=
              (s.lines.filter fun l => ! isShipmentCostLine l) ++
                [newEndiciaShipmentLine c mc
                  (env.usdToSaleCurrency env.salePriceUsd)] } := by
  unfold Sale.apply_endicia_shipping
  rw [hc]
  simp only [hm, if_true]
  rw [hmc]
  simp only [husd, if_false]

/-- C1: on the endicia path with a mail class and non-falsy USD and
converted costs, applying shipping yields a sale with exactly one
shipment-cost line — the new line, whose unit price, amount and shipment
cost all equal the converted cost — and applying shipping a second time
with the same environment again yields exactly that single line, the
prior one having been removed. -/
theorem apply_endicia_shipping_unique_line (env : ApplyEnv) (s : Sale)
    (c : Carrier) (mc : MailClass) (hc : s.carrier = some c)
    (hm : c.carrier_cost_method = "endicia")
    (hmc : s.endicia_mailclass = some mc) (husd : env.salePriceUsd ≠ 0)
    (hcost : env.usdToSaleCurrency env.salePriceUsd ≠ 0) :
    ∃ s₁, Sale.apply_endicia_shipping env s = .ok s₁ ∧
      s₁.lines.filter isShipmentCostLine =
        [newEndiciaShipmentLine c mc (env.usdToSaleCurrency env.salePriceUsd)] ∧
      (newEndiciaShipmentLine c mc
          (env.usdToSaleCurrency env.salePriceUsd)).unitPrice =
        env.usdToSaleCurrency env.salePriceUsd ∧
      (newEndiciaShipmentLine c mc
          (env.usdToSaleCurrency env.salePriceUsd)).amount =
        env.usdToSaleCurrency env.salePriceUsd ∧
      (newEndiciaShipmentLine c mc
          (env.usdToSaleCurrency env.salePriceUsd)).shipmentCost =
        some (env.usdToSaleCurrency env.salePriceUsd) ∧
      ∃ s₂, Sale.apply_endicia_shipping env s₁ = .ok s₂ ∧
        s₂.lines.filter isShipmentCostLine =
          [newEndiciaShipmentLine c mc
            (env.usdToSaleCurrency env.salePriceUsd)] := by
  have hn := isShipmentCostLine_new c mc _ hcost
  refine ⟨_, apply_endicia_shipping_ok env s c mc hc hm hmc husd,
    filter_shipment_after_replace s.lines _ hn, rfl, rfl, rfl, ?_⟩
  refine ⟨_, apply_endicia_shipping_ok env _ c mc hc hm hmc husd, ?_⟩
  exact filter_shipment_after_replace _ _ hn

/-- Witness for C1: applying shipping to the sale that carries a stale
shipping line yields exactly the single fresh shipping line (cost 7 in
the sale currency), twice in a row. -/
theorem apply_endicia_shipping_unique_line_witness :
    ∃ s₁, Sale.apply_endicia_shipping applyEnvW saleApplyW = .ok s₁ ∧
      s₁.lines.filter isShipmentCostLine =
        [newEndiciaShipmentLine endiciaCarrierW mcPriorityW
          (applyEnvW.usdToSaleCurrency applyEnvW.salePriceUsd)] ∧
      (newEndiciaShipmentLine endiciaCarrierW mcPriorityW
          (applyEnvW.usdToSaleCurrency applyEnvW.salePriceUsd)).unitPrice =
        applyEnvW.usdToSaleCurrency applyEnvW.salePriceUsd ∧
      (newEndiciaShipmentLine endiciaCarrierW mcPriorityW
          (applyEnvW.usdToSaleCurrency applyEnvW.salePriceUsd)).amount =
        applyEnvW.usdToSaleCurrency applyEnvW.salePriceUsd ∧
      (newEndiciaShipmentLine endiciaCarrierW mcPriorityW
          (applyEnvW.usdToSaleCurrency applyEnvW.salePriceUsd)).shipmentCost =
        some (applyEnvW.usdToSaleCurrency applyEnvW.salePriceUsd) ∧
      ∃ s₂, Sale.apply_endicia_shipping applyEnvW s₁ = .ok s₂ ∧
        s₂.lines.filter isShipmentCostLine =
          [newEndiciaShipmentLine endiciaCarrierW mcPriorityW
            (applyEnvW.usdToSaleCurrency applyEnvW.salePriceUsd)] :=
  apply_endicia_shipping_unique_line applyEnvW saleApplyW endiciaCarrierW
    mcPriorityW rfl rfl rfl (by with_unfolding_all decide)
    (by with_unfolding_all decide)

/-- Rate lines are always truthy, so `filter(None, rate_lines)` keeps the
whole list. -/
theorem filter_truthy_id (ls : List RateLine) : ls.filter RateLine.truthy = ls := by
  induction ls with
  | nil => rfl
  | cons a l ih => simp [List.filter, RateLine.truthy, ih]

/-- With `silent` true, the rate loop skips every mail class whose quote
fails with a `UserError` and collects the successful quotes in order. -/
theorem rateLoop_silent_true (labelFn : Carrier → MailClass → String)
    (usdId : Nat) (c : Carrier) (env : CostEnv) (s : Sale)
    (mcs : List MailClass)
    (hall : ∀ mc ∈ mcs, ∀ e,
      (Sale.get_endicia_shipping_cost env s (some mc.value)).1 = .error e →
        e.isUserError = true) :
    endiciaRateLoop labelFn usdId c env s true mcs =
      .ok (endiciaRateSuccesses labelFn usdId c env s mcs) := by
  induction mcs with
  | nil => rfl
  | cons mc rest ih =>
    have ih₂ := ih fun m hm e he => hall m (List.mem_cons_of_mem mc hm) e he
    unfold endiciaRateLoop endiciaRateSuccesses
    rcases hc : (Sale.get_endicia_shipping_cost env s (some mc.value)).1
      with e | cost <;> simp only [hc]
    · have he := hall mc (List.mem_cons_self mc rest) e hc
      simp only [he, if_true]
      rw [ih₂]
      simp [endiciaRateSuccesses, List.filterMap_cons, hc]
    · rw [ih₂]
      simp only [endiciaRateSuccesses, List.filterMap_cons, hc]
      rfl

/-- With `silent` false, the first `UserError` in the loop propagates;
when every failure is the mail-class-missing error, that error is the
outcome as soon as any mail class fails. -/
theorem rateLoop_false_error (labelFn : Carrier → MailClass → String)
    (usdId : Nat) (c : Carrier) (env : CostEnv) (s : Sale)
    (mcs : List MailClass)
    (hall : ∀ mc ∈ mcs, ∀ e,
      (Sale.get_endicia_shipping_cost env s (some mc.value)).1 = .error e →
        e = .mailClassMissing)
    (hex : ∃ mc ∈ mcs, ∃ e,
      (Sale.get_endicia_shipping_cost env s (some mc.value)).1 = .error e) :
    endiciaRateLoop labelFn usdId c env s false mcs =
      .error .mailClassMissing := by
  induction mcs with
  | nil =>
    rcases hex with ⟨mc, hm, _⟩
    exact absurd hm (List.not_mem_nil mc)
  | cons mc rest ih =>
    unfold endiciaRateLoop
    rcases hc : (Sale.get_endicia_shipping_cost env s (some mc.value)).1
      with e | cost <;> simp only [hc]
    · have he := hall mc (List.mem_cons_self mc rest) e hc
      subst he
      simp
    · have hex₂ : ∃ m ∈ rest, ∃ e,
          (Sale.get_endicia_shipping_cost env s (some m.value)).1 = .error e := by
        rcases hex with ⟨m, hm, e, hme⟩
        rcases List.mem_cons.mp hm with rfl | hm₂
        · rw [hc] at hme; cases hme
        · exact ⟨m, hm₂, e, hme⟩
      rw [ih (fun m hm e he => hall m (List.mem_cons_of_mem mc hm) e he) hex₂]
      rfl

/-- A non-`UserError` failure on the first mail class of the loop
propagates out, whatever the silent flag. -/
theorem rateLoop_nonuser_head (labelFn : Carrier → MailClass → String)
    (usdId : Nat) (c : Carrier) (env : CostEnv) (s : Sale) (silent : Bool)
    (mc : MailClass) (rest : List MailClass) (e : SaleError)
    (hc : (Sale.get_endicia_shipping_cost env s (some mc.value)).1 = .error e)
    (hu : e.isUserError = false) :
    endiciaRateLoop labelFn usdId c env s silent (mc :: rest) = .error e := by
  unfold endiciaRateLoop
  simp [hc, hu]

/-- C3: with a unique endicia carrier and every possible quote failure
being the mail-class-missing error, silent rate shopping returns one rate
option per successfully quoted mail class, in iteration order, skipping
the failing ones; non-silent rate shopping propagates the error and
returns nothing as soon as any mail class fails. -/
theorem rates_skip_failing_mailclasses (labelFn : Carrier → MailClass → String)
    (usdId : Nat) (allCarriers : List Carrier) (env : CostEnv) (s : Sale)
    (mcs : List MailClass) (c : Carrier)
    (hcar : allCarriers.filter (fun c => c.carrier_cost_method == "endicia") = [c])
    (hfail : ∀ mc ∈ mcs, ∀ e,
      (Sale.get_endicia_shipping_cost env s (some mc.value)).1 = .error e →
        e = .mailClassMissing) :
    Sale.get_endicia_shipping_rates labelFn usdId allCarriers env s mcs true =
        .ok (endiciaRateSuccesses labelFn usdId c env s mcs) ∧
      ((∃ mc ∈ mcs, ∃ e,
          (Sale.get_endicia_shipping_cost env s (some mc.value)).1 = .error e) →
        Sale.get_endicia_shipping_rates labelFn usdId allCarriers env s mcs false =
          .error .mailClassMissing) := by
  constructor
  · unfold Sale.get_endicia_shipping_rates
    simp only [hcar]
    rw [rateLoop_silent_true labelFn usdId c env s mcs
      (fun mc hm e he => by rw [hfail mc hm e he]; rfl)]
    exact congrArg Except.ok (filter_truthy_id _)
  · intro hex
    unfold Sale.get_endicia_shipping_rates
    simp only [hcar]
    rw [rateLoop_false_error labelFn usdId c env s mcs hfail hex]
    rfl

/-- Witness for C3: three eligible mail classes on a sale with no
selected mail class; the blank-valued second one fails with the
mail-class-missing error, so silent shopping returns options one and
three in order, and non-silent shopping fails. -/
theorem rates_skip_failing_mailclasses_witness :
    Sale.get_endicia_shipping_rates lblW 1 [endiciaCarrierW] envOkW saleNoMcW
        [mcPriorityW, mcBlankW, mcFirstW] true =
        .ok [makeEndiciaRateLine lblW 1 endiciaCarrierW mcPriorityW (mkRat 7 2),
          makeEndiciaRateLine lblW 1 endiciaCarrierW mcFirstW (mkRat 7 2)] ∧
      Sale.get_endicia_shipping_rates lblW 1 [endiciaCarrierW] envOkW saleNoMcW
        [mcPriorityW, mcBlankW, mcFirstW] false = .error .mailClassMissing := by
  have hfail : ∀ mc ∈ [mcPriorityW, mcBlankW, mcFirstW], ∀ e,
      (Sale.get_endicia_shipping_cost envOkW saleNoMcW (some mc.value)).1 =
        .error e → e = SaleError.mailClassMissing := by
    intro mc hm e he
    fin_cases hm
    · rw [show (Sale.get_endicia_shipping_cost envOkW saleNoMcW
        (some mcPriorityW.value)).1 = .ok (mkRat 7 2) from rfl] at he
      cases he
    · rw [show (Sale.get_endicia_shipping_cost envOkW saleNoMcW
        (some mcBlankW.value)).1 = .error .mailClassMissing from rfl] at he
      exact (Except.error.inj he).symm
    · rw [show (Sale.get_endicia_shipping_cost envOkW saleNoMcW
        (some mcFirstW.value)).1 = .ok (mkRat 7 2) from rfl] at he
      cases he
  have h := rates_skip_failing_mailclasses lblW 1 [endiciaCarrierW] envOkW
    saleNoMcW [mcPriorityW, mcBlankW, mcFirstW] endiciaCarrierW rfl hfail
  refine ⟨?_, h.2 ⟨mcBlankW, by simp, .mailClassMissing, rfl⟩⟩
  rw [h.1]
  rfl

/-- C2 counterexample: a remote-service failure surfaces as a
`CarrierRequestError` user error from the quote, yet silent rate shopping
swallows it and returns an empty option list instead of propagating. -/
theorem rates_suppress_carrier_request_cx :
    Sale.get_endicia_shipping_cost envReqErrW saleMcW
        (some mcPriorityW.value) =
        (.error (.carrierRequest "server down"),
          [endiciaPostageRequest envReqErrW saleMcW (some mcPriorityW.value) []]) ∧
      Sale.get_endicia_shipping_rates lblW 1 [endiciaCarrierW] envReqErrW
        saleMcW [mcPriorityW] true = .ok [] ∧
      Sale.get_endicia_shipping_rates lblW 1 [endiciaCarrierW] envReqErrW
        saleMcW [mcPriorityW] true ≠ .error (.carrierRequest "server down") :=
  ⟨rfl, rfl, by
    intro h
    rw [show Sale.get_endicia_shipping_rates lblW 1 [endiciaCarrierW]
      envReqErrW saleMcW [mcPriorityW] true = Except.ok [] from rfl] at h
    cases h⟩

/-- C2 amended: with `silent` true, every `UserError` failure of a quote —
mail-class-missing, missing-weight or carrier-request alike — is swallowed
and the mail class skipped, while a non-`UserError` exception propagates
out of rate shopping whatever the silent flag. -/
theorem rates_silent_swallows_all_user_errors
    (labelFn : Carrier → MailClass → String) (usdId : Nat)
    (allCarriers : List Carrier) (env : CostEnv) (s : Sale)
    (mcs : List MailClass) (c : Carrier)
    (hcar : allCarriers.filter (fun c => c.carrier_cost_method == "endicia") = [c]) :
    ((∀ mc ∈ mcs, ∀ e,
        (Sale.get_endicia_shipping_cost env s (some mc.value)).1 = .error e →
          e.isUserError = true) →
      Sale.get_endicia_shipping_rates labelFn usdId allCarriers env s mcs true =
        .ok (endiciaRateSuccesses labelFn usdId c env s mcs)) ∧
    (∀ silent mc rest e, mcs = mc :: rest →
      (Sale.get_endicia_shipping_cost env s (some mc.value)).1 = .error e →
      e.isUserError = false →
      Sale.get_endicia_shipping_rates labelFn usdId allCarriers env s mcs silent =
        .error e) := by
  constructor
  · intro hall
    unfold Sale.get_endicia_shipping_rates
    simp only [hcar]
    rw [rateLoop_silent_true labelFn usdId c env s mcs hall]
    exact congrArg Except.ok (filter_truthy_id _)
  · intro silent mc rest e hmcs hc hu
    subst hmcs
    unfold Sale.get_endicia_shipping_rates
    simp only [hcar]
    rw [rateLoop_nonuser_head labelFn usdId c env s silent mc rest e hc hu]
    rfl

/-- Witness for the amended C2: a carrier-request user error is swallowed
under silent shopping (empty option list), while a raw socket failure —
not a `UserError` — propagates even with `silent` true. -/
theorem rates_silent_swallows_all_user_errors_witness :
    Sale.get_endicia_shipping_rates lblW 1 [endiciaCarrierW] envReqErrW
        saleMcW [mcPriorityW] true =
        .ok (endiciaRateSuccesses lblW 1 endiciaCarrierW envReqErrW saleMcW
          [mcPriorityW]) ∧
      Sale.get_endicia_shipping_rates lblW 1 [endiciaCarrierW] envSocketW
        saleMcW [mcPriorityW] true = .error (.otherExc "socket closed") := by
  constructor
  · refine (rates_silent_swallows_all_user_errors lblW 1 [endiciaCarrierW]
      envReqErrW saleMcW [mcPriorityW] endiciaCarrierW rfl).1 ?_
    intro mc hm e he
    fin_cases hm
    rw [show (Sale.get_endicia_shipping_cost envReqErrW saleMcW
      (some mcPriorityW.value)).1 = .error (.carrierRequest "server down")
      from rfl] at he
    cases Except.error.inj he
    rfl
  · exact (rates_silent_swallows_all_user_errors lblW 1 [endiciaCarrierW]
      envSocketW saleMcW [mcPriorityW] endiciaCarrierW rfl).2 true mcPriorityW
      [] (.otherExc "socket closed") rfl rfl rfl

end Endicia
